import Mathlib

/-!
Verification of the PFR dry-reforming simulation engine
(`src/simulation/pfr_drm_cantera.py`) against its specification.

The Python module is a pure, single-threaded numerical routine over IEEE
floats.  We embed it shallowly over `ℝ`:

* float arithmetic becomes real arithmetic (`math.exp` ↦ `Real.exp`,
  `np.tanh` ↦ `Real.tanh`, `np.clip` ↦ `min`/`max`, `math.log` ↦ `Real.log`);
* `raise`/`except` becomes `Except PFRErr` (exception messages are elided,
  only the exception class is tracked, mirroring `isinstance` dispatch);
* every value produced by real arithmetic is finite, so the code's
  `np.isfinite` guards and the `np.nan_to_num` repair step are modelled as
  the identity / the always-false branch they take on finite data;
* Cantera's thermodynamic lookups (`density_mole`,
  `standard_enthalpies_RT`, `standard_entropies_R`) are external library
  data, not code of this repository; they are abstracted into a
  `ThermoProvider` record and all theorems are stated for an arbitrary
  provider (concrete constant providers instantiate it in witnesses).

The six tracked species of `gri30.yaml` used by the model are fixed, in the
array order `[CH4, CO2, CO, H2, H2O, N2]` of the Python code.
-/

namespace DRM

/-- The six species tracked by the model, in the index order of the
Python flow array `F` (`idx = {CH4:0, CO2:1, CO:2, H2:3, H2O:4, N2:5}`). -/
inductive Species : Type
  | CH4 | CO2 | CO | H2 | H2O | N2
deriving DecidableEq

/-- Exception classes of the module.  `pfrModel` is the base class
`PFRModelError`; the other three are its subclasses.  Messages are elided. -/
inductive PFRErr : Type
  | pfrModel | kinetics | thermo | inputValidation
deriving DecidableEq

/-- `ct.gas_constant` (J/(kmol·K)), the exact double Cantera exposes. -/
noncomputable def Rgas : ℝ := 8314.46261815324

/-- `ct.one_atm` (Pa). -/
noncomputable def oneAtm : ℝ := 101325.0

/-- Sum of a species-indexed vector, in array order (models `F.sum()` /
`sum(X.values())` over the fixed six entries). -/
noncomputable def total (F : Species → ℝ) : ℝ :=
  F .CH4 + F .CO2 + F .CO + F .H2 + F .H2O + F .N2

/-- Product of a species-indexed vector, in array order (models the
accumulating `prod_p *= ...` / `q *= ...` loops over the six species). -/
noncomputable def prodS (f : Species → ℝ) : ℝ :=
  f .CH4 * f .CO2 * f .CO * f .H2 * f .H2O * f .N2

/-- Abstraction of the Cantera thermodynamic backend: molar density
(kmol/m³) as a function of (T, P, composition), and the dimensionless
standard enthalpies `H°/(R·T)` and entropies `S°/R` as functions of T.
These are library data (gri30.yaml NASA polynomials), not repository code. -/
structure ThermoProvider : Type where
  densityMole : ℝ → ℝ → (Species → ℝ) → ℝ
  h0RT : ℝ → Species → ℝ
  s0R : ℝ → Species → ℝ

/-- The state captured by a `ct.Solution` after `gas.TPX = T, P, full`:
temperature, pressure and the (already normalized) mole fractions. -/
structure GasState : Type where
  T : ℝ
  P : ℝ
  X : Species → ℝ

/-- `KineticsParams` dataclass with its default placeholder values and
default order maps (the `__post_init__` defaults
`{"CH4":1,"CO2":1}` / `{"CO2":1,"H2":1}`).  Order maps are total
functions; species absent from the Python dict carry order 0, which the
rate loop skips, so the two encodings agree. -/
structure KineticsParams : Type where
  A_drm : ℝ := 1.00e-3
  E_drm : ℝ := 1.20e5
  orders_drm : Species → ℝ := fun sp =>
    match sp with | .CH4 => 1.0 | .CO2 => 1.0 | _ => 0
  A_rwgs : ℝ := 5.00e-4
  E_rwgs : ℝ := 9.00e4
  orders_rwgs : Species → ℝ := fun sp =>
    match sp with | .CO2 => 1.0 | .H2 => 1.0 | _ => 0

/-- Explicit exception-propagating bind for `Except` (a `raise` inside a
helper aborts the caller's `try` block). -/
def ebind {α β : Type} (x : Except PFRErr α) (f : α → Except PFRErr β) :
    Except PFRErr β :=
  match x with
  | .error e => .error e
  | .ok a => f a

/-- `validate_inputs`: the pre-flight checks, in source order.  The two
`logger.warning` branches (T_C > 2000, P_bar > 100) do not affect the
result and are omitted. -/
noncomputable def validate_inputs (T_C P_bar fCH4 fCO2 fN2 GHSV : ℝ) :
    Except PFRErr Unit :=
  if T_C < -273.15 then .error .inputValidation
  else if P_bar ≤ 0 then .error .inputValidation
  else if fCH4 < 0 ∨ fCO2 < 0 ∨ fN2 < 0 then .error .inputValidation
  else if fCH4 + fCO2 + fN2 ≤ 0 then .error .inputValidation
  else if GHSV ≤ 0 then .error .inputValidation
  else .ok ()

/-- `build_gas`: normalizes the supplied composition and checks it.  The
`np.isfinite` test is vacuous over `ℝ`; the negativity test on the
normalized fractions is kept.  Cantera itself cannot fail here for the
six fixed gri30 species, so no further error case is modelled. -/
noncomputable def build_gas (T P : ℝ) (X : Species → ℝ) :
    Except PFRErr GasState :=
  if total X ≤ 0 then .error .thermo
  else
    if X .CH4 / total X < 0 ∨ X .CO2 / total X < 0 ∨ X .CO / total X < 0 ∨
       X .H2 / total X < 0 ∨ X .H2O / total X < 0 ∨ X .N2 / total X < 0
    then .error .thermo
    else .ok ⟨T, P, fun sp => X sp / total X⟩

/-- `mlpm_to_molps`: ml/min → mol/s via the provider's molar density at
the gas state's own (T,P,X). -/
noncomputable def mlpm_to_molps (prov : ThermoProvider) (ml : ℝ)
    (g : GasState) : Except PFRErr ℝ :=
  if ml < 0 then .error .inputValidation
  else
    if prov.densityMole g.T g.P g.X * 1e3 ≤ 0 then .error .thermo
    else .ok (ml * 1e-6 / 60.0 * (prov.densityMole g.T g.P g.X * 1e3))

/-- The raise condition of the rate's pressure loop: some species has
nonzero order, negative order, and clamped partial pressure exactly 0
(`0 ** negative` is undefined).  Written as the explicit disjunction over
the six species the loop can visit. -/
noncomputable def badOrder (orders p : Species → ℝ) : Prop :=
  (orders .CH4 ≠ 0 ∧ orders .CH4 < 0 ∧ max (p .CH4) 0 = 0) ∨
  (orders .CO2 ≠ 0 ∧ orders .CO2 < 0 ∧ max (p .CO2) 0 = 0) ∨
  (orders .CO ≠ 0 ∧ orders .CO < 0 ∧ max (p .CO) 0 = 0) ∨
  (orders .H2 ≠ 0 ∧ orders .H2 < 0 ∧ max (p .H2) 0 = 0) ∨
  (orders .H2O ≠ 0 ∧ orders .H2O < 0 ∧ max (p .H2O) 0 = 0) ∨
  (orders .N2 ≠ 0 ∧ orders .N2 < 0 ∧ max (p .N2) 0 = 0)

noncomputable instance badOrderDec (orders p : Species → ℝ) :
    Decidable (badOrder orders p) := by
  unfold badOrder; infer_instance

/-- The pressure product `Π max(p_i,0) ** alpha_i` of `power_law_rate`.
The Python loop skips species of order 0 (factor 1); `Real.rpow` gives
`x ^ (0:ℝ) = 1` for every `x`, so the total product over all six species
coincides with the loop's product over species of nonzero order. -/
noncomputable def plrProd (orders p : Species → ℝ) : ℝ :=
  prodS (fun sp => (max (p sp) 0) ^ (orders sp))

/-- `power_law_rate`: forward power-law rate.  Control flow of the source:
temperature guard, underflow-floored rate constant, the pressure loop
(which raises iff `badOrder`), non-negative clamp.  The `np.isfinite`
guard on the result is vacuous over `ℝ`. -/
noncomputable def power_law_rate (A E : ℝ) (orders : Species → ℝ)
    (g : GasState) (p : Species → ℝ) : Except PFRErr ℝ :=
  if g.T ≤ 0 then .error .kinetics
  else
    if badOrder orders p then .error .kinetics
    else
      .ok (max ((if -E / (Rgas * g.T) < -700 then 0
                 else A * Real.exp (-E / (Rgas * g.T))) * plrProd orders p) 0)

/-- Net mole change `Δnu` of a reaction given as (species, nu) pairs. -/
def rxnDnu (rxn : List (Species × ℤ)) : ℤ := (rxn.map Prod.snd).sum

/-- `ΔG° = Σ nu·(h0·R·T − T·(s0·R))` of `equilibrium_constant`. -/
noncomputable def rxnDG0 (prov : ThermoProvider) (g : GasState)
    (rxn : List (Species × ℤ)) : ℝ :=
  (rxn.map (fun q => (q.2 : ℝ) *
    (prov.h0RT g.T q.1 * Rgas * g.T - g.T * (prov.s0R g.T q.1 * Rgas)))).sum

/-- The raw (pre-clip) `lnKp = -ΔG°/(R·T) − Δnu·ln(P0/P)`. -/
noncomputable def eqLnKp (prov : ThermoProvider) (g : GasState)
    (rxn : List (Species × ℤ)) : ℝ :=
  -(rxnDG0 prov g rxn) / (Rgas * g.T) - (rxnDnu rxn : ℝ) * Real.log (oneAtm / g.P)

/-- `np.clip(x, -700, 700)` on a real argument. -/
noncomputable def clip700 (x : ℝ) : ℝ := min (max x (-700)) 700

/-- `equilibrium_constant`.  The six gri30 species always resolve in
`smap`, so the unknown-species branch is not reachable for the two fixed
reactions and is not modelled; the final positivity/finiteness guard is. -/
noncomputable def equilibrium_constant (prov : ThermoProvider) (g : GasState)
    (rxn : List (Species × ℤ)) : Except PFRErr ℝ :=
  if Real.exp (clip700 (eqLnKp prov g rxn)) ≤ 0 then .error .thermo
  else .ok (Real.exp (clip700 (eqLnKp prov g rxn)))

/-- DRM stoichiometry `[-1, -1, +2, +2, 0, 0]` (CH4 + CO2 ↔ 2CO + 2H2). -/
def nu_drm : Species → ℤ := fun sp =>
  match sp with
  | .CH4 => -1 | .CO2 => -1 | .CO => 2 | .H2 => 2 | .H2O => 0 | .N2 => 0

/-- RWGS stoichiometry `[0, -1, +1, -1, +1, 0]` (CO2 + H2 ↔ CO + H2O). -/
def nu_rwgs : Species → ℤ := fun sp =>
  match sp with
  | .CH4 => 0 | .CO2 => -1 | .CO => 1 | .H2 => -1 | .H2O => 1 | .N2 => 0

/-- `rxn_drm` tuple of the source. -/
def rxn_drm : List (Species × ℤ) := [(.CO, 2), (.H2, 2), (.CH4, -1), (.CO2, -1)]

/-- `rxn_rwgs` tuple of the source. -/
def rxn_rwgs : List (Species × ℤ) := [(.CO, 1), (.H2O, 1), (.CO2, -1), (.H2, -1)]

/-- The in-loop reaction quotient `Qp`: product over species of nonzero
stoichiometry of `max(p_i, 1e-30) ** nu_i`, clipped to `[1e-300, 1e300]`.
The `nu = 0` factors are 1 exactly as the loop skips them. -/
noncomputable def Qp (p : Species → ℝ) (nu : Species → ℤ) : ℝ :=
  min (max (prodS (fun sp => if nu sp = 0 then 1 else (max (p sp) 1e-30) ^ (nu sp))) 1e-300) 1e300

/-- The damped net rate `r_f * (1 - np.tanh(Qp / max(Kp, 1e-300)))`. -/
noncomputable def net_rate (rf qv kp : ℝ) : ℝ :=
  rf * (1 - Real.tanh (qv / max kp 1e-300))

/-- Mole fractions from the current flow vector, `X = F / F.sum()`. -/
noncomputable def stepX (F : Species → ℝ) : Species → ℝ :=
  fun sp => F sp / total F

/-- Partial pressures `p_i = X_i * P` of the segment. -/
noncomputable def stepP (P : ℝ) (F : Species → ℝ) : Species → ℝ :=
  fun sp => stepX F sp * P

/-- The two net rates computed inside one segment (gas rebuild, two
forward rates, two equilibrium constants, two damped net rates), with the
source's exception propagation. -/
noncomputable def stepRates (prov : ThermoProvider) (kin : KineticsParams)
    (T P : ℝ) (F : Species → ℝ) : Except PFRErr (ℝ × ℝ) :=
  ebind (build_gas T P (stepX F)) (fun g =>
  ebind (power_law_rate kin.A_drm kin.E_drm kin.orders_drm g (stepP P F)) (fun rf1 =>
  ebind (power_law_rate kin.A_rwgs kin.E_rwgs kin.orders_rwgs g (stepP P F)) (fun rf2 =>
  ebind (equilibrium_constant prov g rxn_drm) (fun kp1 =>
  ebind (equilibrium_constant prov g rxn_rwgs) (fun kp2 =>
  .ok (net_rate rf1 (Qp (stepP P F) nu_drm) kp1,
       net_rate rf2 (Qp (stepP P F) nu_rwgs) kp2))))))

/-- Species source vector `R = nu_drm*r_drm_net + nu_rwgs*r_rwgs_net`. -/
noncomputable def stepR (r1 r2 : ℝ) : Species → ℝ :=
  fun sp => (nu_drm sp : ℝ) * r1 + (nu_rwgs sp : ℝ) * r2

/-- One segment body inside the `try`: net rates, then the clamped Euler
update `F ← np.clip(F + R*dV, 0, None)`.  Over `ℝ` every entry of `R` is
finite, so the `np.isfinite` branch with `np.nan_to_num` never fires. -/
noncomputable def seg_step_core (prov : ThermoProvider) (kin : KineticsParams)
    (T P dV : ℝ) (F : Species → ℝ) : Except PFRErr (Species → ℝ) :=
  ebind (stepRates prov kin T P F) (fun r =>
    .ok (fun sp => max (F sp + stepR r.1 r.2 sp * dV) 0))

/-- One iteration of the segment loop.  `break` on vanishing flow leaves
`F` unchanged, and since the break condition only depends on `F` it then
holds in all later iterations, so modelling `break` as a skip makes the
iterated step extensionally equal to the Python loop.  An exception inside
the body is caught (`except Exception`), logged, and the segment skipped
with `F` unchanged (`continue`). -/
noncomputable def loop_step (prov : ThermoProvider) (kin : KineticsParams)
    (T P dV : ℝ) (F : Species → ℝ) : Species → ℝ :=
  if total F ≤ 1e-30 then F
  else
    match seg_step_core prov kin T P dV F with
    | .ok F2 => F2
    | .error _ => F

/-- `for segment in range(nseg)`: `n` iterations of `loop_step`. -/
noncomputable def run_loop (prov : ThermoProvider) (kin : KineticsParams)
    (T P dV : ℝ) : ℕ → (Species → ℝ) → Species → ℝ
  | 0, F => F
  | n + 1, F => run_loop prov kin T P dV n (loop_step prov kin T P dV F)

/-- The initial composition `{CH4: 0.5, CO2: 0.5}` used for the density
of the feed conversion. -/
noncomputable def iniX : Species → ℝ := fun sp =>
  match sp with | .CH4 => 0.5 | .CO2 => 0.5 | _ => 0

/-- Inlet flow vector `F` with `F[CH4]=a, F[CO2]=b, F[N2]=c`, rest 0. -/
noncomputable def mkF0 (a b c : ℝ) : Species → ℝ := fun sp =>
  match sp with | .CH4 => a | .CO2 => b | .N2 => c | _ => 0

/-- Everything `pfr_drm` computes before the segment loop. -/
structure InitData : Type where
  kin : KineticsParams
  T : ℝ
  P : ℝ
  dV : ℝ
  F0 : Species → ℝ

/-- The initialization phase of `pfr_drm`, in source order: validation,
kinetics defaulting, `nseg` check, unit conversions (N2 only when its
feed is > 0), the rebuilt inlet gas (whose value is unused but whose
exceptions propagate), reactor volume from GHSV, segment length. -/
noncomputable def pfr_drm_init (prov : ThermoProvider)
    (T_C P_bar fCH4 fCO2 fN2 GHSV : ℝ) (nseg : ℤ)
    (kinOpt : Option KineticsParams) : Except PFRErr InitData :=
  ebind (validate_inputs T_C P_bar fCH4 fCO2 fN2 GHSV) (fun _ =>
  if nseg ≤ 0 then .error .inputValidation
  else
    ebind (build_gas (T_C + 273.15) (P_bar * 1e5) iniX) (fun gas0 =>
    ebind (mlpm_to_molps prov fCH4 gas0) (fun fa =>
    ebind (mlpm_to_molps prov fCO2 gas0) (fun fb =>
    ebind (if fN2 > 0 then mlpm_to_molps prov fN2 gas0 else .ok 0) (fun fc =>
    ebind (build_gas (T_C + 273.15) (P_bar * 1e5)
            (fun sp => mkF0 fa fb fc sp / (fa + fb + fc + 1e-30))) (fun _ =>
    .ok ⟨kinOpt.getD {}, T_C + 273.15, P_bar * 1e5,
         max (total (mkF0 fa fb fc) * (Rgas * (T_C + 273.15) / (P_bar * 1e5)) / GHSV)
           1e-15 / (nseg : ℝ),
         mkF0 fa fb fc⟩))))))

/-- The success payload of `pfr_drm` (outlet mole fractions of the five
reported species — N2 is not reported — and the total outlet flow). -/
structure SimResult : Type where
  y_H2 : ℝ
  y_CH4 : ℝ
  y_CO : ℝ
  y_CO2 : ℝ
  y_H2O : ℝ
  Ftot : ℝ

/-- Final normalization `Ft = F.sum() + 1e-30; y = F/Ft` and the result
dict. -/
noncomputable def finishF (F : Species → ℝ) : SimResult :=
  ⟨F .H2 / (total F + 1e-30), F .CH4 / (total F + 1e-30),
   F .CO / (total F + 1e-30), F .CO2 / (total F + 1e-30),
   F .H2O / (total F + 1e-30), total F + 1e-30⟩

/-- The body of `pfr_drm` inside its outer `try`: initialization, then
`nseg` loop iterations, then the result dict. -/
noncomputable def pfr_drm_core (prov : ThermoProvider)
    (T_C P_bar fCH4 fCO2 fN2 GHSV : ℝ) (nseg : ℤ)
    (kinOpt : Option KineticsParams) : Except PFRErr SimResult :=
  match pfr_drm_init prov T_C P_bar fCH4 fCO2 fN2 GHSV nseg kinOpt with
  | .error e => .error e
  | .ok d => .ok (finishF (run_loop prov d.kin d.T d.P d.dV nseg.toNat d.F0))

/-- `pfr_drm` as the caller sees it: the outer
`except Exception as e: raise PFRModelError(...)` re-wraps every escaping
exception — including `InputValidationError` from validation — as the
base class `PFRModelError`, losing the subclass. -/
noncomputable def pfr_drm (prov : ThermoProvider)
    (T_C P_bar fCH4 fCO2 fN2 GHSV : ℝ) (nseg : ℤ)
    (kinOpt : Option KineticsParams) : Except PFRErr SimResult :=
  match pfr_drm_core prov T_C P_bar fCH4 fCO2 fN2 GHSV nseg kinOpt with
  | .ok r => .ok r
  | .error _ => .error .pfrModel

/-! ### Concrete instantiation data for witnesses and counterexamples

The model is parametric in the thermodynamic backend; concrete providers
below are explicit inputs used to evaluate the engine on closed runs. -/

/-- A constant thermodynamic backend: molar density `1e-3` kmol/m³
(i.e. 1 mol/m³ after the code's `*1e3`), zero standard enthalpies and
entropies. -/
noncomputable def prov0 : ThermoProvider :=
  ⟨fun _ _ _ => 1e-3, fun _ _ => 0, fun _ _ => 0⟩

/-- A backend giving CO a huge standard enthalpy, which drives the DRM
equilibrium constant to the clip floor `exp(-700)`. -/
noncomputable def provC6 : ThermoProvider :=
  ⟨fun _ _ _ => 1e-3, fun _ sp => if sp = .CO then 1e6 else 0, fun _ _ => 0⟩

/-- Kinetics with zero activation energies and unit pre-exponentials
(valid per `_validate_params`), giving strictly positive forward rates. -/
noncomputable def kinC6 : KineticsParams :=
  { A_drm := 1, E_drm := 0, A_rwgs := 1, E_rwgs := 0 }

/-- Kinetics whose DRM order map gives H2 a negative order (accepted by
`_validate_params`, which only checks A and E). -/
noncomputable def kinBad : KineticsParams :=
  { orders_drm := fun sp =>
      match sp with | .CH4 => 1 | .CO2 => 1 | .H2 => -1 | _ => 0 }

/-- The all-ones flow vector. -/
noncomputable def onesF : Species → ℝ := fun _ => 1

/-- The gas state a segment builds from the all-ones flow vector at
T = 1000 K, P = 1 atm. -/
noncomputable def gC6 : GasState := ⟨1000, oneAtm, stepX onesF⟩

/-- The DRM forward rate of that segment (no underflow, so the Arrhenius
factor is kept). -/
noncomputable def rfD6 : ℝ :=
  max (kinC6.A_drm * Real.exp (-kinC6.E_drm / (Rgas * gC6.T)) *
    plrProd kinC6.orders_drm (stepP oneAtm onesF)) 0

/-- The RWGS forward rate of that segment. -/
noncomputable def rfW6 : ℝ :=
  max (kinC6.A_rwgs * Real.exp (-kinC6.E_rwgs / (Rgas * gC6.T)) *
    plrProd kinC6.orders_rwgs (stepP oneAtm onesF)) 0

/-- Output of the frozen run (T_C = −273.14, so both Arrhenius exponents
underflow and no reaction proceeds) with feeds 700/300/1000 ml/min and
one segment: the inlet flows 7/600000, 1/200000, 1/60000 mol/s pass
through unchanged, and the N2 flow is missing from the reported
fractions. -/
noncomputable def resC3 : SimResult :=
  ⟨0, 7 / 600000 / (1 / 30000 + 1e-30), 0, 1 / 200000 / (1 / 30000 + 1e-30),
   0, 1 / 30000 + 1e-30⟩

/-- Output of the same frozen run with zero N2 feed. -/
noncomputable def res0C : SimResult :=
  ⟨0, 7 / 600000 / (1 / 60000 + 1e-30), 0, 1 / 200000 / (1 / 60000 + 1e-30),
   0, 1 / 60000 + 1e-30⟩

/-- A flow vector with 1 mol/s of CH4 and of CO2. -/
noncomputable def F5 : Species → ℝ := mkF0 1 1 0

/-- The clamped Euler update of `F5` under zero net rates and dV = 1. -/
noncomputable def F5step : Species → ℝ :=
  fun sp => max (F5 sp + stepR 0 0 sp * 1) 0

/-! ### Helper lemmas about the embedding -/

@[simp] lemma ebind_ok {α β : Type} (a : α) (f : α → Except PFRErr β) :
    ebind (.ok a) f = f a := rfl

@[simp] lemma ebind_err {α β : Type} (e : PFRErr) (f : α → Except PFRErr β) :
    ebind (.error e) f = .error e := rfl

lemma total_nonneg {F : Species → ℝ} (hF : ∀ sp, 0 ≤ F sp) : 0 ≤ total F := by
  unfold total
  have h1 := hF Species.CH4; have h2 := hF Species.CO2; have h3 := hF Species.CO
  have h4 := hF Species.H2; have h5 := hF Species.H2O; have h6 := hF Species.N2
  linarith

lemma total_div (F : Species → ℝ) (c : ℝ) :
    total (fun sp => F sp / c) = total F / c := by
  unfold total; ring

/-- Any of the five fatal pre-flight conditions makes `validate_inputs`
raise `InputValidationError`. -/
lemma validate_inputs_fires {T_C P_bar fCH4 fCO2 fN2 GHSV : ℝ}
    (h : T_C < -273.15 ∨ P_bar ≤ 0 ∨ fCH4 < 0 ∨ fCO2 < 0 ∨ fN2 < 0 ∨ GHSV ≤ 0) :
    validate_inputs T_C P_bar fCH4 fCO2 fN2 GHSV = .error .inputValidation := by
  unfold validate_inputs
  split_ifs with h1 h2 h3 h4 h5 <;> first | rfl | tauto

lemma build_gas_ok (T P : ℝ) {X : Species → ℝ} (h0 : 0 < total X)
    (h1 : ∀ sp, 0 ≤ X sp) :
    build_gas T P X = .ok ⟨T, P, fun sp => X sp / total X⟩ := by
  unfold build_gas
  rw [if_neg (not_le.2 h0), if_neg]
  push_neg
  exact ⟨div_nonneg (h1 _) h0.le, div_nonneg (h1 _) h0.le, div_nonneg (h1 _) h0.le,
         div_nonneg (h1 _) h0.le, div_nonneg (h1 _) h0.le, div_nonneg (h1 _) h0.le⟩

/-- Building the per-segment gas from `X = F / F.sum()` renormalizes to the
same fractions. -/
lemma build_gasX_ok (T P : ℝ) {F : Species → ℝ} (h0 : 0 < total F)
    (hF : ∀ sp, 0 ≤ F sp) :
    build_gas T P (stepX F) = .ok ⟨T, P, stepX F⟩ := by
  have htX : total (stepX F) = 1 := by
    unfold stepX; rw [total_div]; exact div_self h0.ne'
  have := build_gas_ok T P (X := stepX F) (htX ▸ one_pos)
    (fun sp => div_nonneg (hF sp) h0.le)
  rw [this, htX]
  simp

lemma mlpm_ok (prov : ThermoProvider) {ml : ℝ} (g : GasState) (h : 0 ≤ ml)
    (hc : 0 < prov.densityMole g.T g.P g.X * 1e3) :
    mlpm_to_molps prov ml g
      = .ok (ml * 1e-6 / 60.0 * (prov.densityMole g.T g.P g.X * 1e3)) := by
  unfold mlpm_to_molps
  rw [if_neg (not_lt.2 h), if_neg (not_le.2 hc)]

/-- A successful feed conversion is non-negative. -/
lemma mlpm_ok_nonneg {prov : ThermoProvider} {ml v : ℝ} {g : GasState}
    (h : mlpm_to_molps prov ml g = .ok v) : 0 ≤ v := by
  unfold mlpm_to_molps at h
  split_ifs at h with h1 h2
  injection h with h
  subst h
  have := not_lt.1 h1
  have := not_le.1 h2
  positivity

/-- `equilibrium_constant` always succeeds: the clipped exponential is
strictly positive, so its own error branch is unreachable. -/
lemma eq_const_ok (prov : ThermoProvider) (g : GasState)
    (rxn : List (Species × ℤ)) :
    equilibrium_constant prov g rxn
      = .ok (Real.exp (clip700 (eqLnKp prov g rxn))) := by
  unfold equilibrium_constant
  rw [if_neg (not_le.2 (Real.exp_pos _))]

lemma clip700_le (x : ℝ) : clip700 x ≤ 700 := min_le_right _ _

lemma le_clip700 (x : ℝ) : -700 ≤ clip700 x :=
  le_min (le_max_right _ _) (by norm_num)

/-- Order maps with no negative exponent never trip the `0 ** negative`
guard. -/
lemma not_badOrder_of_nonneg {orders : Species → ℝ}
    (h : ∀ sp, 0 ≤ orders sp) (p : Species → ℝ) : ¬ badOrder orders p := by
  unfold badOrder
  push_neg
  refine ⟨fun _ h2 => absurd h2 (not_lt.2 (h _)), fun _ h2 => absurd h2 (not_lt.2 (h _)),
          fun _ h2 => absurd h2 (not_lt.2 (h _)), fun _ h2 => absurd h2 (not_lt.2 (h _)),
          fun _ h2 => absurd h2 (not_lt.2 (h _)), fun _ h2 => absurd h2 (not_lt.2 (h _))⟩

lemma plr_eval {A E : ℝ} {orders : Species → ℝ} {g : GasState}
    {p : Species → ℝ} (hT : 0 < g.T) (hnb : ¬ badOrder orders p) :
    power_law_rate A E orders g p
      = .ok (max ((if -E / (Rgas * g.T) < -700 then 0
                   else A * Real.exp (-E / (Rgas * g.T))) * plrProd orders p) 0) := by
  unfold power_law_rate
  rw [if_neg (not_le.2 hT), if_neg hnb]

/-- In the underflow branch (`-E/(R·T) < -700`) the rate is exactly 0. -/
lemma plr_zero {A E : ℝ} {orders : Species → ℝ} {g : GasState}
    {p : Species → ℝ} (hT : 0 < g.T) (hnb : ¬ badOrder orders p)
    (hu : -E / (Rgas * g.T) < -700) :
    power_law_rate A E orders g p = .ok 0 := by
  rw [plr_eval hT hnb, if_pos hu, zero_mul, max_self]

@[simp] lemma net_rate_zero (qv kp : ℝ) : net_rate 0 qv kp = 0 := by
  unfold net_rate; ring

/-- When both activation energies put the Arrhenius exponent below the
-700 underflow floor and neither order map has negative orders, both
forward rates are 0 and hence both damped net rates are exactly 0. -/
lemma stepRates_zero (prov : ThermoProvider) (kin : KineticsParams)
    {T : ℝ} (P : ℝ) {F : Species → ℝ} (hT : 0 < T)
    (hu1 : -kin.E_drm / (Rgas * T) < -700) (hu2 : -kin.E_rwgs / (Rgas * T) < -700)
    (ho1 : ∀ sp, 0 ≤ kin.orders_drm sp) (ho2 : ∀ sp, 0 ≤ kin.orders_rwgs sp)
    (h0 : 0 < total F) (hF : ∀ sp, 0 ≤ F sp) :
    stepRates prov kin T P F = .ok (0, 0) := by
  unfold stepRates
  rw [build_gasX_ok T P h0 hF, ebind_ok,
      plr_zero hT (not_badOrder_of_nonneg ho1 _) hu1, ebind_ok,
      plr_zero hT (not_badOrder_of_nonneg ho2 _) hu2, ebind_ok,
      eq_const_ok, ebind_ok, eq_const_ok, ebind_ok, net_rate_zero, net_rate_zero]

/-- Under the conditions of `stepRates_zero` a whole segment leaves the
(non-negative) flow vector unchanged. -/
lemma loop_step_frozen (prov : ThermoProvider) (kin : KineticsParams)
    {T : ℝ} (P dV : ℝ) {F : Species → ℝ} (hT : 0 < T)
    (hu1 : -kin.E_drm / (Rgas * T) < -700) (hu2 : -kin.E_rwgs / (Rgas * T) < -700)
    (ho1 : ∀ sp, 0 ≤ kin.orders_drm sp) (ho2 : ∀ sp, 0 ≤ kin.orders_rwgs sp)
    (hF : ∀ sp, 0 ≤ F sp) :
    loop_step prov kin T P dV F = F := by
  unfold loop_step
  split_ifs with h
  · rfl
  · have h0 : 0 < total F := lt_trans (by norm_num) (not_le.1 h)
    have hseg : seg_step_core prov kin T P dV F
        = .ok (fun sp => max (F sp + stepR 0 0 sp * dV) 0) := by
      unfold seg_step_core
      rw [stepRates_zero prov kin P hT hu1 hu2 ho1 ho2 h0 hF, ebind_ok]
    rw [hseg]
    funext sp
    simp only [stepR, mul_zero, zero_mul, add_zero, zero_add]
    exact max_eq_left (hF sp)

/-- Under the conditions of `stepRates_zero`, any number of segments
leaves the flow vector unchanged. -/
lemma run_loop_frozen (prov : ThermoProvider) (kin : KineticsParams)
    {T : ℝ} (P dV : ℝ) {F : Species → ℝ} (hT : 0 < T)
    (hu1 : -kin.E_drm / (Rgas * T) < -700) (hu2 : -kin.E_rwgs / (Rgas * T) < -700)
    (ho1 : ∀ sp, 0 ≤ kin.orders_drm sp) (ho2 : ∀ sp, 0 ≤ kin.orders_rwgs sp)
    (hF : ∀ sp, 0 ≤ F sp) :
    ∀ n, run_loop prov kin T P dV n F = F := by
  intro n
  induction n with
  | zero => rfl
  | succ n ih =>
      show run_loop prov kin T P dV n (loop_step prov kin T P dV F) = F
      rw [loop_step_frozen prov kin P dV hT hu1 hu2 ho1 ho2 hF, ih]

/-- Inversion of a successful segment: the update is the clamped Euler
step with the net rates the segment computed. -/
lemma seg_step_inv {prov : ThermoProvider} {kin : KineticsParams}
    {T P dV : ℝ} {F F2 : Species → ℝ}
    (h : seg_step_core prov kin T P dV F = .ok F2) :
    ∃ r1 r2, stepRates prov kin T P F = .ok (r1, r2) ∧
      F2 = fun sp => max (F sp + stepR r1 r2 sp * dV) 0 := by
  unfold seg_step_core at h
  cases hr : stepRates prov kin T P F with
  | error e => rw [hr, ebind_err] at h; exact absurd h (by simp)
  | ok r =>
      obtain ⟨r1, r2⟩ := r
      rw [hr, ebind_ok] at h
      injection h with h
      exact ⟨r1, r2, hr ▸ rfl, h.symm⟩

/-- After any loop iteration the flow vector is entrywise non-negative. -/
lemma loop_step_nonneg (prov : ThermoProvider) (kin : KineticsParams)
    (T P dV : ℝ) {F : Species → ℝ} (hF : ∀ sp, 0 ≤ F sp) :
    ∀ sp, 0 ≤ loop_step prov kin T P dV F sp := by
  intro sp
  unfold loop_step
  split_ifs with h
  · exact hF sp
  · cases hseg : seg_step_core prov kin T P dV F with
    | error e => exact hF sp
    | ok F2 =>
        obtain ⟨r1, r2, -, hF2⟩ := seg_step_inv hseg
        rw [hF2]
        exact le_max_right _ _

/-- The N2 entry is inert: both stoichiometric vectors vanish on it, so a
loop iteration never changes it (its clamp is the identity on a
non-negative entry). -/
lemma loop_step_N2 (prov : ThermoProvider) (kin : KineticsParams)
    (T P dV : ℝ) {F : Species → ℝ} (hN2 : 0 ≤ F .N2) :
    loop_step prov kin T P dV F .N2 = F .N2 := by
  unfold loop_step
  split_ifs with h
  · rfl
  · cases hseg : seg_step_core prov kin T P dV F with
    | error e => rfl
    | ok F2 =>
        obtain ⟨r1, r2, -, hF2⟩ := seg_step_inv hseg
        rw [hF2]
        simp only [stepR, nu_drm, nu_rwgs, Int.cast_zero, zero_mul, add_zero, zero_add]
        exact max_eq_left hN2

/-- Non-negativity of the flow vector is preserved over the whole run. -/
lemma run_loop_nonneg (prov : ThermoProvider) (kin : KineticsParams)
    (T P dV : ℝ) : ∀ (n : ℕ) {F : Species → ℝ}, (∀ sp, 0 ≤ F sp) →
    ∀ sp, 0 ≤ run_loop prov kin T P dV n F sp := by
  intro n
  induction n with
  | zero => intro F hF sp; exact hF sp
  | succ n ih =>
      intro F hF sp
      exact ih (loop_step_nonneg prov kin T P dV hF) sp

/-- The N2 flow survives the whole run unchanged. -/
lemma run_loop_N2 (prov : ThermoProvider) (kin : KineticsParams)
    (T P dV : ℝ) : ∀ (n : ℕ) {F : Species → ℝ}, (∀ sp, 0 ≤ F sp) →
    run_loop prov kin T P dV n F .N2 = F .N2 := by
  intro n
  induction n with
  | zero => intro F _; rfl
  | succ n ih =>
      intro F hF
      show run_loop prov kin T P dV n (loop_step prov kin T P dV F) .N2 = F .N2
      rw [ih (loop_step_nonneg prov kin T P dV hF), loop_step_N2 prov kin T P dV (hF _)]

lemma ebind_ok_inv {α β : Type} {x : Except PFRErr α} {f : α → Except PFRErr β}
    {b : β} (h : ebind x f = .ok b) : ∃ a, x = .ok a ∧ f a = .ok b := by
  cases x with
  | error e => exact absurd h (by simp)
  | ok a => exact ⟨a, rfl, h⟩

/-- The clipped reaction quotient is strictly positive (it is at least the
clip floor `1e-300`). -/
lemma Qp_pos (p : Species → ℝ) (nu : Species → ℤ) : 0 < Qp p nu := by
  have h : (1e-300 : ℝ) ≤ Qp p nu :=
    le_min (le_max_right _ _) (by norm_num)
  linarith [h]

lemma thousand_lt_exp_seven : (1000 : ℝ) < Real.exp 7 := by
  have h1 : (2.7182818283 : ℝ) ^ (7 : ℕ) < Real.exp 1 ^ (7 : ℕ) :=
    pow_lt_pow_left₀ Real.exp_one_gt_d9 (by norm_num) (by norm_num)
  have h2 : Real.exp 1 ^ (7 : ℕ) = Real.exp 7 := by
    rw [← Real.exp_nat_mul]; norm_num
  nlinarith [h1, h2]

lemma big_lt_exp700 : (1e300 : ℝ) < Real.exp 700 := by
  have h1 : (1000 : ℝ) ^ (100 : ℕ) < Real.exp 7 ^ (100 : ℕ) :=
    pow_lt_pow_left₀ thousand_lt_exp_seven (by norm_num) (by norm_num)
  have h2 : Real.exp 7 ^ (100 : ℕ) = Real.exp 700 := by
    rw [← Real.exp_nat_mul]; norm_num
  have h3 : (1000 : ℝ) ^ (100 : ℕ) = 1e300 := by norm_num
  linarith [h1]

/-- The equilibrium clip floor sits strictly below the net-rate guard
`1e-300`, so `max(Kp, 1e-300)` can genuinely replace `Kp`. -/
lemma exp_neg700_lt : Real.exp (-700) < 1e-300 := by
  have h := big_lt_exp700
  have hinv : (Real.exp 700)⁻¹ < (1e300 : ℝ)⁻¹ :=
    inv_strictAnti₀ (by norm_num) h
  rw [← Real.exp_neg] at hinv
  have : ((1e300 : ℝ))⁻¹ = 1e-300 := by norm_num
  linarith [hinv, this.symm.le]

/-- `Real.tanh` is strictly monotone. -/
lemma tanh_lt_tanh {x y : ℝ} (h : x < y) : Real.tanh x < Real.tanh y := by
  have hx := Real.cosh_pos x
  have hy := Real.cosh_pos y
  have key : Real.tanh y - Real.tanh x
      = Real.sinh (y - x) / (Real.cosh y * Real.cosh x) := by
    rw [Real.tanh_eq_sinh_div_cosh, Real.tanh_eq_sinh_div_cosh,
        div_sub_div _ _ hy.ne' hx.ne', Real.sinh_sub]
  have hpos : 0 < Real.sinh (y - x) := Real.sinh_pos_iff.2 (by linarith)
  have := div_pos hpos (mul_pos hy hx)
  linarith [key ▸ this]

/-- `validate_inputs` either succeeds or raises `InputValidationError`. -/
lemma validate_inputs_cases (T_C P_bar fCH4 fCO2 fN2 GHSV : ℝ) :
    validate_inputs T_C P_bar fCH4 fCO2 fN2 GHSV = .ok () ∨
    validate_inputs T_C P_bar fCH4 fCO2 fN2 GHSV = .error .inputValidation := by
  unfold validate_inputs
  split_ifs <;> simp

/-- Any of the fatal pre-flight conditions (including non-positive
`nseg`) aborts `pfr_drm` before the loop: internally an
`InputValidationError` is raised, and the outer handler re-wraps it as
the base `PFRModelError` for the caller. -/
lemma pfr_invalid_input (prov : ThermoProvider)
    (T_C P_bar fCH4 fCO2 fN2 GHSV : ℝ) (nseg : ℤ) (kinOpt : Option KineticsParams)
    (h : T_C < -273.15 ∨ P_bar ≤ 0 ∨ fCH4 < 0 ∨ fCO2 < 0 ∨ fN2 < 0 ∨
         GHSV ≤ 0 ∨ nseg ≤ 0) :
    pfr_drm_core prov T_C P_bar fCH4 fCO2 fN2 GHSV nseg kinOpt
      = .error .inputValidation ∧
    pfr_drm prov T_C P_bar fCH4 fCO2 fN2 GHSV nseg kinOpt
      = .error .pfrModel := by
  have hcore : pfr_drm_core prov T_C P_bar fCH4 fCO2 fN2 GHSV nseg kinOpt
      = .error .inputValidation := by
    unfold pfr_drm_core pfr_drm_init
    by_cases h6 : T_C < -273.15 ∨ P_bar ≤ 0 ∨ fCH4 < 0 ∨ fCO2 < 0 ∨ fN2 < 0 ∨
        GHSV ≤ 0
    · rw [validate_inputs_fires h6, ebind_err]
    · have hn : nseg ≤ 0 := by tauto
      rcases validate_inputs_cases T_C P_bar fCH4 fCO2 fN2 GHSV with hv | hv
      · rw [hv, ebind_ok, if_pos hn]
      · rw [hv, ebind_err]
  refine ⟨hcore, ?_⟩
  unfold pfr_drm
  rw [hcore]

/-- Inversion of the outer wrapper: a successful overall call means the
core body succeeded with the same result. -/
lemma pfr_drm_ok_inv {prov : ThermoProvider}
    {T_C P_bar fCH4 fCO2 fN2 GHSV : ℝ} {nseg : ℤ}
    {kinOpt : Option KineticsParams} {res : SimResult}
    (h : pfr_drm prov T_C P_bar fCH4 fCO2 fN2 GHSV nseg kinOpt = .ok res) :
    pfr_drm_core prov T_C P_bar fCH4 fCO2 fN2 GHSV nseg kinOpt = .ok res := by
  unfold pfr_drm at h
  cases hc : pfr_drm_core prov T_C P_bar fCH4 fCO2 fN2 GHSV nseg kinOpt with
  | error e => rw [hc] at h; exact absurd h (by simp)
  | ok r => rw [hc] at h; injection h with h; rw [h]

/-- Inversion of the core body: a success is the finished loop output of
a successful initialization. -/
lemma pfr_drm_core_ok_inv {prov : ThermoProvider}
    {T_C P_bar fCH4 fCO2 fN2 GHSV : ℝ} {nseg : ℤ}
    {kinOpt : Option KineticsParams} {res : SimResult}
    (h : pfr_drm_core prov T_C P_bar fCH4 fCO2 fN2 GHSV nseg kinOpt = .ok res) :
    ∃ d, pfr_drm_init prov T_C P_bar fCH4 fCO2 fN2 GHSV nseg kinOpt = .ok d ∧
      res = finishF (run_loop prov d.kin d.T d.P d.dV nseg.toNat d.F0) := by
  unfold pfr_drm_core at h
  cases hd : pfr_drm_init prov T_C P_bar fCH4 fCO2 fN2 GHSV nseg kinOpt with
  | error e => rw [hd] at h; exact absurd h (by simp)
  | ok d =>
      rw [hd] at h
      injection h with h
      exact ⟨d, rfl, h.symm⟩

/-- A successful initialization produces a non-negative inlet flow vector
whose N2 entry is zero whenever the N2 feed is not positive. -/
lemma pfr_drm_init_F0 {prov : ThermoProvider}
    {T_C P_bar fCH4 fCO2 fN2 GHSV : ℝ} {nseg : ℤ}
    {kinOpt : Option KineticsParams} {d : InitData}
    (h : pfr_drm_init prov T_C P_bar fCH4 fCO2 fN2 GHSV nseg kinOpt = .ok d) :
    (∀ sp, 0 ≤ d.F0 sp) ∧ (¬ fN2 > 0 → d.F0 .N2 = 0) := by
  unfold pfr_drm_init at h
  obtain ⟨u, hv, h⟩ := ebind_ok_inv h
  by_cases hn : nseg ≤ 0
  · rw [if_pos hn] at h
    exact absurd h (fun hh => Except.noConfusion hh)
  rw [if_neg hn] at h
  obtain ⟨g0, hg0, h⟩ := ebind_ok_inv h
  obtain ⟨fa, hfa, h⟩ := ebind_ok_inv h
  obtain ⟨fb, hfb, h⟩ := ebind_ok_inv h
  obtain ⟨fc, hfc, h⟩ := ebind_ok_inv h
  obtain ⟨g1, hg1, h⟩ := ebind_ok_inv h
  injection h with h
  have hfc2 : 0 ≤ fc ∧ (¬ fN2 > 0 → fc = 0) := by
    split_ifs at hfc with hpos
    · exact ⟨mlpm_ok_nonneg hfc, fun hc => absurd hpos hc⟩
    · injection hfc with hfc
      exact ⟨hfc ▸ le_refl 0, fun _ => hfc.symm⟩
  constructor
  · intro sp
    rw [← h]
    cases sp <;>
      simp [mkF0, mlpm_ok_nonneg hfa, mlpm_ok_nonneg hfb, hfc2.1]
  · intro hneg
    rw [← h]
    simpa [mkF0] using hfc2.2 hneg

/-! ### The frozen run: T_C = -273.14 puts both Arrhenius exponents far
below the -700 underflow floor, so both rates vanish and the inlet flows
pass through every segment unchanged.  This gives closed-form outputs of
whole `pfr_drm` calls. -/

lemma default_kin_frozen :
    0 < (0.01 : ℝ) ∧
    -({} : KineticsParams).E_drm / (Rgas * 0.01) < -700 ∧
    -({} : KineticsParams).E_rwgs / (Rgas * 0.01) < -700 ∧
    (∀ sp, 0 ≤ ({} : KineticsParams).orders_drm sp) ∧
    (∀ sp, 0 ≤ ({} : KineticsParams).orders_rwgs sp) := by
  refine ⟨by norm_num, ?_, ?_, ?_, ?_⟩
  · show -(1.20e5 : ℝ) / (Rgas * 0.01) < -700
    rw [div_lt_iff₀ (by norm_num [Rgas] : (0:ℝ) < Rgas * 0.01)]
    norm_num [Rgas]
  · show -(9.00e4 : ℝ) / (Rgas * 0.01) < -700
    rw [div_lt_iff₀ (by norm_num [Rgas] : (0:ℝ) < Rgas * 0.01)]
    norm_num [Rgas]
  · intro sp; cases sp <;> norm_num
  · intro sp; cases sp <;> norm_num

lemma frozen_init_n2 :
    ∃ d : InitData,
      pfr_drm_init prov0 (-273.14) 1.0 700 300 1000 10000 1 none = .ok d ∧
      d.kin = {} ∧ d.T = 0.01 ∧
      d.F0 = mkF0 (7 / 600000) (1 / 200000) (1 / 60000) := by
  have hv : validate_inputs (-273.14) 1.0 700 300 1000 10000 = .ok () := by
    unfold validate_inputs
    norm_num
  have htX : total iniX = 1 := by unfold total iniX; norm_num
  have hbg : build_gas (-273.14 + 273.15) (1.0 * 1e5) iniX
      = .ok ⟨-273.14 + 273.15, 1.0 * 1e5, fun sp => iniX sp / total iniX⟩ :=
    build_gas_ok _ _ (by rw [htX]; norm_num)
      (fun sp => by cases sp <;> (unfold iniX; norm_num))
  set g0 : GasState := ⟨-273.14 + 273.15, 1.0 * 1e5, fun sp => iniX sp / total iniX⟩
    with hg0def
  have hc : 0 < prov0.densityMole g0.T g0.P g0.X * 1e3 := by
    show (0:ℝ) < 1e-3 * 1e3
    norm_num
  have hfa := mlpm_ok prov0 g0 (by norm_num : (0:ℝ) ≤ 700) hc
  have hfb := mlpm_ok prov0 g0 (by norm_num : (0:ℝ) ≤ 300) hc
  have hfc := mlpm_ok prov0 g0 (by norm_num : (0:ℝ) ≤ 1000) hc
  have ea : (700 : ℝ) * 1e-6 / 60.0 * (prov0.densityMole g0.T g0.P g0.X * 1e3)
      = 7 / 600000 := by
    show (700 : ℝ) * 1e-6 / 60.0 * (1e-3 * 1e3) = 7 / 600000
    norm_num
  have eb : (300 : ℝ) * 1e-6 / 60.0 * (prov0.densityMole g0.T g0.P g0.X * 1e3)
      = 1 / 200000 := by
    show (300 : ℝ) * 1e-6 / 60.0 * (1e-3 * 1e3) = 1 / 200000
    norm_num
  have ec : (1000 : ℝ) * 1e-6 / 60.0 * (prov0.densityMole g0.T g0.P g0.X * 1e3)
      = 1 / 60000 := by
    show (1000 : ℝ) * 1e-6 / 60.0 * (1e-3 * 1e3) = 1 / 60000
    norm_num
  rw [ea] at hfa
  rw [eb] at hfb
  rw [ec] at hfc
  have htot2 : total (mkF0 (7 / 600000) (1 / 200000) (1 / 60000)) = 1 / 30000 := by
    unfold total mkF0; norm_num
  have h02 : 0 < total (fun sp => mkF0 (7 / 600000) (1 / 200000) (1 / 60000) sp /
      (7 / 600000 + 1 / 200000 + 1 / 60000 + 1e-30)) := by
    rw [total_div, htot2]
    norm_num
  have h12 : ∀ sp, 0 ≤ mkF0 (7 / 600000 : ℝ) (1 / 200000) (1 / 60000) sp /
      (7 / 600000 + 1 / 200000 + 1 / 60000 + 1e-30) := by
    intro sp
    have h : 0 ≤ mkF0 (7 / 600000 : ℝ) (1 / 200000) (1 / 60000) sp := by
      cases sp <;> (unfold mkF0; norm_num)
    have hs : (0:ℝ) < 7 / 600000 + 1 / 200000 + 1 / 60000 + 1e-30 := by norm_num
    exact div_nonneg h hs.le
  have hbg2 := build_gas_ok (-273.14 + 273.15) (1.0 * 1e5) h02 h12
  refine ⟨⟨{}, -273.14 + 273.15, 1.0 * 1e5,
      max (total (mkF0 (7 / 600000) (1 / 200000) (1 / 60000)) *
        (Rgas * (-273.14 + 273.15) / (1.0 * 1e5)) / 10000) 1e-15 / ((1 : ℤ) : ℝ),
      mkF0 (7 / 600000) (1 / 200000) (1 / 60000)⟩, ?_, rfl, by norm_num, rfl⟩
  unfold pfr_drm_init
  rw [hv, ebind_ok, if_neg (by norm_num : ¬ (1:ℤ) ≤ 0), hbg, ebind_ok,
      hfa, ebind_ok, hfb, ebind_ok, if_pos (by norm_num : (1000:ℝ) > 0),
      hfc, ebind_ok, hbg2, ebind_ok]
  rfl

lemma frozen_init_0 :
    ∃ d : InitData,
      pfr_drm_init prov0 (-273.14) 1.0 700 300 0 10000 1 none = .ok d ∧
      d.kin = {} ∧ d.T = 0.01 ∧
      d.F0 = mkF0 (7 / 600000) (1 / 200000) 0 := by
  have hv : validate_inputs (-273.14) 1.0 700 300 0 10000 = .ok () := by
    unfold validate_inputs
    norm_num
  have htX : total iniX = 1 := by unfold total iniX; norm_num
  have hbg : build_gas (-273.14 + 273.15) (1.0 * 1e5) iniX
      = .ok ⟨-273.14 + 273.15, 1.0 * 1e5, fun sp => iniX sp / total iniX⟩ :=
    build_gas_ok _ _ (by rw [htX]; norm_num)
      (fun sp => by cases sp <;> (unfold iniX; norm_num))
  set g0 : GasState := ⟨-273.14 + 273.15, 1.0 * 1e5, fun sp => iniX sp / total iniX⟩
    with hg0def
  have hc : 0 < prov0.densityMole g0.T g0.P g0.X * 1e3 := by
    show (0:ℝ) < 1e-3 * 1e3
    norm_num
  have hfa := mlpm_ok prov0 g0 (by norm_num : (0:ℝ) ≤ 700) hc
  have hfb := mlpm_ok prov0 g0 (by norm_num : (0:ℝ) ≤ 300) hc
  have ea : (700 : ℝ) * 1e-6 / 60.0 * (prov0.densityMole g0.T g0.P g0.X * 1e3)
      = 7 / 600000 := by
    show (700 : ℝ) * 1e-6 / 60.0 * (1e-3 * 1e3) = 7 / 600000
    norm_num
  have eb : (300 : ℝ) * 1e-6 / 60.0 * (prov0.densityMole g0.T g0.P g0.X * 1e3)
      = 1 / 200000 := by
    show (300 : ℝ) * 1e-6 / 60.0 * (1e-3 * 1e3) = 1 / 200000
    norm_num
  rw [ea] at hfa
  rw [eb] at hfb
  have htot2 : total (mkF0 (7 / 600000) (1 / 200000) 0) = 1 / 60000 := by
    unfold total mkF0; norm_num
  have h02 : 0 < total (fun sp => mkF0 (7 / 600000) (1 / 200000) 0 sp /
      (7 / 600000 + 1 / 200000 + 0 + 1e-30)) := by
    rw [total_div, htot2]
    norm_num
  have h12 : ∀ sp, 0 ≤ mkF0 (7 / 600000 : ℝ) (1 / 200000) 0 sp /
      (7 / 600000 + 1 / 200000 + 0 + 1e-30) := by
    intro sp
    have h : 0 ≤ mkF0 (7 / 600000 : ℝ) (1 / 200000) 0 sp := by
      cases sp <;> (unfold mkF0; norm_num)
    have hs : (0:ℝ) < 7 / 600000 + 1 / 200000 + 0 + 1e-30 := by norm_num
    exact div_nonneg h hs.le
  have hbg2 := build_gas_ok (-273.14 + 273.15) (1.0 * 1e5) h02 h12
  refine ⟨⟨{}, -273.14 + 273.15, 1.0 * 1e5,
      max (total (mkF0 (7 / 600000) (1 / 200000) 0) *
        (Rgas * (-273.14 + 273.15) / (1.0 * 1e5)) / 10000) 1e-15 / ((1 : ℤ) : ℝ),
      mkF0 (7 / 600000) (1 / 200000) 0⟩, ?_, rfl, by norm_num, rfl⟩
  unfold pfr_drm_init
  rw [hv, ebind_ok, if_neg (by norm_num : ¬ (1:ℤ) ≤ 0), hbg, ebind_ok,
      hfa, ebind_ok, hfb, ebind_ok, if_neg (by norm_num : ¬ (0:ℝ) > 0),
      ebind_ok, hbg2, ebind_ok]
  rfl

lemma mkF0_n2_nonneg : ∀ sp, 0 ≤ mkF0 (7 / 600000 : ℝ) (1 / 200000) (1 / 60000) sp := by
  intro sp; cases sp <;> (unfold mkF0; norm_num)

lemma mkF0_0_nonneg : ∀ sp, 0 ≤ mkF0 (7 / 600000 : ℝ) (1 / 200000) 0 sp := by
  intro sp; cases sp <;> (unfold mkF0; norm_num)

/-- The frozen run with a 1000 ml/min N2 diluent: the inlet passes
through unchanged and the five reported fractions sum to about 1/2. -/
lemma frozen_run_n2 :
    pfr_drm prov0 (-273.14) 1.0 700 300 1000 10000 1 none = .ok resC3 := by
  obtain ⟨d, hd, hkin, hT, hF0⟩ := frozen_init_n2
  obtain ⟨hT0, hu1, hu2, ho1, ho2⟩ := default_kin_frozen
  have hloop : run_loop prov0 d.kin d.T d.P d.dV (Int.toNat 1) d.F0 = d.F0 := by
    rw [hkin, hT, hF0]
    exact run_loop_frozen prov0 {} d.P d.dV hT0 hu1 hu2 ho1 ho2 mkF0_n2_nonneg _
  unfold pfr_drm pfr_drm_core
  rw [hd]
  show Except.ok (finishF (run_loop prov0 d.kin d.T d.P d.dV (Int.toNat 1) d.F0))
      = .ok resC3
  rw [hloop, hF0]
  have ht : total (mkF0 (7 / 600000 : ℝ) (1 / 200000) (1 / 60000)) = 1 / 30000 := by
    unfold total mkF0; norm_num
  have : finishF (mkF0 (7 / 600000 : ℝ) (1 / 200000) (1 / 60000)) = resC3 := by
    unfold finishF resC3
    rw [ht]
    simp only [mkF0]
    norm_num
  rw [this]

/-- The frozen run with no N2 diluent. -/
lemma frozen_run_0 :
    pfr_drm prov0 (-273.14) 1.0 700 300 0 10000 1 none = .ok res0C := by
  obtain ⟨d, hd, hkin, hT, hF0⟩ := frozen_init_0
  obtain ⟨hT0, hu1, hu2, ho1, ho2⟩ := default_kin_frozen
  have hloop : run_loop prov0 d.kin d.T d.P d.dV (Int.toNat 1) d.F0 = d.F0 := by
    rw [hkin, hT, hF0]
    exact run_loop_frozen prov0 {} d.P d.dV hT0 hu1 hu2 ho1 ho2 mkF0_0_nonneg _
  unfold pfr_drm pfr_drm_core
  rw [hd]
  show Except.ok (finishF (run_loop prov0 d.kin d.T d.P d.dV (Int.toNat 1) d.F0))
      = .ok res0C
  rw [hloop, hF0]
  have ht : total (mkF0 (7 / 600000 : ℝ) (1 / 200000) 0) = 1 / 60000 := by
    unfold total mkF0; norm_num
  have : finishF (mkF0 (7 / 600000 : ℝ) (1 / 200000) 0) = res0C := by
    unfold finishF res0C
    rw [ht]
    simp only [mkF0]
    norm_num
  rw [this]

/-- The clamped Euler update preserves the total carbon flow
`F[CH4]+F[CO2]+F[CO]` exactly whenever no entry is clamped, because both
stoichiometric vectors carry zero net carbon. -/
lemma carbon_step {prov : ThermoProvider} {kin : KineticsParams}
    {T P dV : ℝ} {F F2 : Species → ℝ} {r1 r2 : ℝ}
    (hr : stepRates prov kin T P F = .ok (r1, r2))
    (hnn : ∀ sp, 0 ≤ F sp + stepR r1 r2 sp * dV)
    (hF2 : seg_step_core prov kin T P dV F = .ok F2) :
    F2 .CH4 + F2 .CO2 + F2 .CO = F .CH4 + F .CO2 + F .CO := by
  obtain ⟨r1', r2', hr', hF2'⟩ := seg_step_inv hF2
  have hrr : r1' = r1 ∧ r2' = r2 := by
    rw [hr] at hr'
    injection hr' with h
    exact ⟨(congrArg Prod.fst h).symm, (congrArg Prod.snd h).symm⟩
  obtain ⟨h1, h2⟩ := hrr
  subst h1; subst h2
  rw [hF2']
  show max (F .CH4 + stepR r1' r2' .CH4 * dV) 0 +
      max (F .CO2 + stepR r1' r2' .CO2 * dV) 0 +
      max (F .CO + stepR r1' r2' .CO * dV) 0 = F .CH4 + F .CO2 + F .CO
  rw [max_eq_left (hnn _), max_eq_left (hnn _), max_eq_left (hnn _)]
  unfold stepR nu_drm nu_rwgs
  push_cast
  ring

/-! ### The equilibrium floor scenario: with `provC6` the DRM equilibrium
constant clips to `exp(-700)`, which lies strictly below the `1e-300`
floor of the net-rate formula, while zero activation energies keep the
forward rates strictly positive. -/

lemma bgC6 : build_gas 1000 oneAtm (stepX onesF) = .ok gC6 := by
  have h0 : 0 < total onesF := by unfold total onesF; norm_num
  exact build_gasX_ok 1000 oneAtm h0 (fun sp => by show (0:ℝ) ≤ 1; norm_num)

lemma eqLnKp_C6_drm : eqLnKp provC6 gC6 rxn_drm = -2000000 := by
  have hR : (Rgas : ℝ) ≠ 0 := by norm_num [Rgas]
  unfold eqLnKp rxnDG0 rxnDnu rxn_drm
  simp only [List.map_cons, List.map_nil, List.sum_cons, List.sum_nil, provC6, gC6]
  rw [if_pos (trivial : True),
      if_neg (by decide : ¬ (Species.H2 = Species.CO)),
      if_neg (by decide : ¬ (Species.CH4 = Species.CO)),
      if_neg (by decide : ¬ (Species.CO2 = Species.CO)),
      div_self (by norm_num [oneAtm] : (oneAtm : ℝ) ≠ 0), Real.log_one]
  push_cast
  field_simp
  ring

lemma eqLnKp_C6_rwgs : eqLnKp provC6 gC6 rxn_rwgs = -1000000 := by
  have hR : (Rgas : ℝ) ≠ 0 := by norm_num [Rgas]
  unfold eqLnKp rxnDG0 rxnDnu rxn_rwgs
  simp only [List.map_cons, List.map_nil, List.sum_cons, List.sum_nil, provC6, gC6]
  rw [if_pos (trivial : True),
      if_neg (by decide : ¬ (Species.H2O = Species.CO)),
      if_neg (by decide : ¬ (Species.CO2 = Species.CO)),
      if_neg (by decide : ¬ (Species.H2 = Species.CO)),
      div_self (by norm_num [oneAtm] : (oneAtm : ℝ) ≠ 0), Real.log_one]
  push_cast
  field_simp
  ring

lemma Kp_C6_drm :
    equilibrium_constant provC6 gC6 rxn_drm = .ok (Real.exp (-700)) := by
  rw [eq_const_ok, eqLnKp_C6_drm]
  have h : clip700 (-2000000 : ℝ) = -700 := by
    unfold clip700
    rw [max_eq_right (by norm_num : (-2000000 : ℝ) ≤ -700),
        min_eq_left (by norm_num : (-700 : ℝ) ≤ 700)]
  rw [h]

lemma Kp_C6_rwgs :
    equilibrium_constant provC6 gC6 rxn_rwgs = .ok (Real.exp (-700)) := by
  rw [eq_const_ok, eqLnKp_C6_rwgs]
  have h : clip700 (-1000000 : ℝ) = -700 := by
    unfold clip700
    rw [max_eq_right (by norm_num : (-1000000 : ℝ) ≤ -700),
        min_eq_left (by norm_num : (-700 : ℝ) ≤ 700)]
  rw [h]

lemma kinC6_orders_drm_nonneg : ∀ sp, 0 ≤ kinC6.orders_drm sp := by
  intro sp; cases sp <;> norm_num [kinC6]

lemma kinC6_orders_rwgs_nonneg : ∀ sp, 0 ≤ kinC6.orders_rwgs sp := by
  intro sp; cases sp <;> norm_num [kinC6]

lemma plr_C6_drm :
    power_law_rate kinC6.A_drm kinC6.E_drm kinC6.orders_drm gC6
      (stepP oneAtm onesF) = .ok rfD6 := by
  have hT : (0:ℝ) < gC6.T := by show (0:ℝ) < 1000; norm_num
  rw [plr_eval hT (not_badOrder_of_nonneg kinC6_orders_drm_nonneg _),
      if_neg (show ¬ -kinC6.E_drm / (Rgas * gC6.T) < -700 by
        show ¬ -(0:ℝ) / (Rgas * 1000) < -700
        norm_num [Rgas])]
  rfl

lemma plr_C6_rwgs :
    power_law_rate kinC6.A_rwgs kinC6.E_rwgs kinC6.orders_rwgs gC6
      (stepP oneAtm onesF) = .ok rfW6 := by
  have hT : (0:ℝ) < gC6.T := by show (0:ℝ) < 1000; norm_num
  rw [plr_eval hT (not_badOrder_of_nonneg kinC6_orders_rwgs_nonneg _),
      if_neg (show ¬ -kinC6.E_rwgs / (Rgas * gC6.T) < -700 by
        show ¬ -(0:ℝ) / (Rgas * 1000) < -700
        norm_num [Rgas])]
  rfl

/-- The net rates a segment computes in the floor scenario (also a closed
witness that a segment succeeds with nonzero kinetics). -/
lemma stepRates_C6 :
    stepRates provC6 kinC6 1000 oneAtm onesF
      = .ok (net_rate rfD6 (Qp (stepP oneAtm onesF) nu_drm) (Real.exp (-700)),
             net_rate rfW6 (Qp (stepP oneAtm onesF) nu_rwgs) (Real.exp (-700))) := by
  unfold stepRates
  rw [bgC6, ebind_ok, plr_C6_drm, ebind_ok, plr_C6_rwgs, ebind_ok,
      Kp_C6_drm, ebind_ok, Kp_C6_rwgs, ebind_ok]

lemma stepP_C6_pos : ∀ sp, 0 < stepP oneAtm onesF sp := by
  intro sp
  show 0 < onesF sp / total onesF * oneAtm
  have ht : total onesF = 6 := by unfold total onesF; norm_num
  show (0:ℝ) < 1 / total onesF * oneAtm
  rw [ht]
  norm_num [oneAtm]

lemma rfD6_pos : 0 < rfD6 := by
  have hprod : 0 < plrProd kinC6.orders_drm (stepP oneAtm onesF) := by
    unfold plrProd prodS
    have hb : ∀ sp, (0:ℝ) < max (stepP oneAtm onesF sp) 0 :=
      fun sp => lt_of_lt_of_le (stepP_C6_pos sp) (le_max_left _ _)
    exact mul_pos (mul_pos (mul_pos (mul_pos (mul_pos
      (Real.rpow_pos_of_pos (hb _) _) (Real.rpow_pos_of_pos (hb _) _))
      (Real.rpow_pos_of_pos (hb _) _)) (Real.rpow_pos_of_pos (hb _) _))
      (Real.rpow_pos_of_pos (hb _) _)) (Real.rpow_pos_of_pos (hb _) _)
  have hA : kinC6.A_drm * Real.exp (-kinC6.E_drm / (Rgas * gC6.T)) > 0 := by
    have := Real.exp_pos (-kinC6.E_drm / (Rgas * gC6.T))
    have hA1 : kinC6.A_drm = 1 := rfl
    rw [hA1]
    linarith
  unfold rfD6
  have := mul_pos hA hprod
  exact lt_max_of_lt_left this

/-- With positive temperature, a tripped `0 ** negative` guard is the
error the rate evaluation raises. -/
lemma plr_badOrder {A E : ℝ} {orders : Species → ℝ} {g : GasState}
    {p : Species → ℝ} (hT : 0 < g.T) (hb : badOrder orders p) :
    power_law_rate A E orders g p = .error .kinetics := by
  unfold power_law_rate
  rw [if_neg (not_le.2 hT), if_pos hb]

/-- A concrete failing segment: `kinBad` gives H2 a negative DRM order
while the CH4/CO2-only flow has zero H2 partial pressure, so the
segment's rate evaluation raises `KineticsError`. -/
lemma seg_error_C4 :
    seg_step_core prov0 kinBad 1000 100000 1 (mkF0 1 1 0) = .error .kinetics := by
  have h0 : 0 < total (mkF0 (1:ℝ) 1 0) := by unfold total mkF0; norm_num
  have hsr : stepRates prov0 kinBad 1000 100000 (mkF0 1 1 0) = .error .kinetics := by
    unfold stepRates
    rw [build_gasX_ok 1000 100000 h0
        (fun sp => by cases sp <;> (unfold mkF0; norm_num)), ebind_ok]
    have hbad : badOrder kinBad.orders_drm (stepP 100000 (mkF0 1 1 0)) := by
      unfold badOrder
      refine Or.inr (Or.inr (Or.inr (Or.inl ⟨?_, ?_, ?_⟩)))
      · show (-1 : ℝ) ≠ 0
        norm_num
      · show (-1 : ℝ) < 0
        norm_num
      · show max (mkF0 (1:ℝ) 1 0 .H2 / total (mkF0 1 1 0) * 100000) 0 = 0
        have hz : mkF0 (1:ℝ) 1 0 .H2 = 0 := rfl
        rw [hz, zero_div, zero_mul, max_self]
    rw [plr_badOrder (show (0:ℝ) < (⟨1000, 100000, stepX (mkF0 1 1 0)⟩ : GasState).T
          by norm_num) hbad, ebind_err]
  unfold seg_step_core
  rw [hsr, ebind_err]

/-- Zero net rates at the frozen state: the loop body succeeds and its
update is the (trivially unclamped) Euler step. -/
lemma seg_ok_C5 :
    stepRates prov0 {} 0.01 100000 F5 = .ok (0, 0) ∧
    seg_step_core prov0 {} 0.01 100000 1 F5 = .ok F5step := by
  obtain ⟨hT0, hu1, hu2, ho1, ho2⟩ := default_kin_frozen
  have h0 : 0 < total F5 := by unfold total F5 mkF0; norm_num
  have hnn : ∀ sp, 0 ≤ F5 sp := by
    intro sp; cases sp <;> (unfold F5 mkF0; norm_num)
  have hsr : stepRates prov0 {} 0.01 100000 F5 = .ok (0, 0) :=
    stepRates_zero prov0 {} 100000 hT0 hu1 hu2 ho1 ho2 h0 hnn
  refine ⟨hsr, ?_⟩
  unfold seg_step_core
  rw [hsr, ebind_ok]
  rfl

/-! ### Claim theorems -/

/-- C1 (counterexample): with T_C = -300 the call does abort before
integration, but the caller receives the re-wrapped base `PFRModelError`
— not `InputValidationError` as the claim states — because the
`except Exception` block at the end of `pfr_drm` re-raises every escaping
exception as `PFRModelError(...)`. -/
theorem C1_counterexample :
    pfr_drm prov0 (-300) 1.0 700 300 0 10000 200 none = .error .pfrModel ∧
    PFRErr.pfrModel ≠ PFRErr.inputValidation :=
  ⟨(pfr_invalid_input prov0 (-300) 1.0 700 300 0 10000 200 none
      (Or.inl (by norm_num))).2, by decide⟩

/-- C1 (amended): for every call with T_C < -273.15, or P_bar ≤ 0, or a
negative inlet flow, or GHSV ≤ 0, or nseg ≤ 0, the run aborts before any
integration segment: an `InputValidationError` is raised inside the body
(the core result is `.error .inputValidation`, produced by the pre-loop
checks), and the top-level handler re-wraps it, so the caller observes
the base `PFRModelError`. -/
theorem C1_validation_aborts (prov : ThermoProvider)
    (T_C P_bar fCH4 fCO2 fN2 GHSV : ℝ) (nseg : ℤ)
    (kinOpt : Option KineticsParams)
    (h : T_C < -273.15 ∨ P_bar ≤ 0 ∨ fCH4 < 0 ∨ fCO2 < 0 ∨ fN2 < 0 ∨
         GHSV ≤ 0 ∨ nseg ≤ 0) :
    pfr_drm_core prov T_C P_bar fCH4 fCO2 fN2 GHSV nseg kinOpt
      = .error .inputValidation ∧
    pfr_drm prov T_C P_bar fCH4 fCO2 fN2 GHSV nseg kinOpt
      = .error .pfrModel :=
  pfr_invalid_input prov T_C P_bar fCH4 fCO2 fN2 GHSV nseg kinOpt h

/-- C1 (witness): the amended theorem at the concrete input GHSV = 0. -/
theorem C1_witness :
    pfr_drm_core prov0 825 1.0 700 300 0 0 200 none = .error .inputValidation ∧
    pfr_drm prov0 825 1.0 700 300 0 0 200 none = .error .pfrModel :=
  C1_validation_aborts prov0 825 1.0 700 300 0 0 200 none (by norm_num)

/-- C2: the per-segment update `F ← clip(F + R·dV, 0, ∞)` leaves every
entry ≥ 0 (and a skipped or broken segment leaves the already
non-negative vector unchanged), so after every loop iteration and, by
induction, throughout the whole run and in the final flow vector, all
six flows are non-negative. -/
theorem C2_flow_nonneg (prov : ThermoProvider) (kin : KineticsParams)
    (T P dV : ℝ) :
    (∀ F : Species → ℝ, (∀ sp, 0 ≤ F sp) →
      ∀ sp, 0 ≤ loop_step prov kin T P dV F sp) ∧
    (∀ (n : ℕ) (F : Species → ℝ), (∀ sp, 0 ≤ F sp) →
      ∀ sp, 0 ≤ run_loop prov kin T P dV n F sp) :=
  ⟨fun _ hF => loop_step_nonneg prov kin T P dV hF,
   fun n _ hF => run_loop_nonneg prov kin T P dV n hF⟩

/-- C2 (witness): non-negativity of a concrete updated flow entry after
one segment and after five segments. -/
theorem C2_witness :
    0 ≤ loop_step prov0 {} 0.01 100000 1
        (mkF0 (7 / 600000) (1 / 200000) (1 / 60000)) .CH4 ∧
    0 ≤ run_loop prov0 {} 0.01 100000 1 5
        (mkF0 (7 / 600000) (1 / 200000) (1 / 60000)) .CO :=
  ⟨(C2_flow_nonneg prov0 {} 0.01 100000 1).1 _ mkF0_n2_nonneg .CH4,
   (C2_flow_nonneg prov0 {} 0.01 100000 1).2 5 _ mkF0_n2_nonneg .CO⟩

/-- C3 (counterexample): a successful run with a 1000 ml/min N2 diluent.
N2 is carried by the flow vector but is not among the five reported mole
fractions, so the returned fractions sum to roughly 1/2 — far outside
1 ± 1e-6. -/
theorem C3_counterexample :
    pfr_drm prov0 (-273.14) 1.0 700 300 1000 10000 1 none = .ok resC3 ∧
    resC3.y_CH4 + resC3.y_CO2 + resC3.y_CO + resC3.y_H2 + resC3.y_H2O
      < 1 - 1e-6 := by
  refine ⟨frozen_run_n2, ?_⟩
  unfold resC3
  norm_num

/-- C3 (amended): for every successful run with zero N2 feed whose
returned total flow is at least 1e-24 mol/s, the five returned mole
fractions sum to 1 within 1e-6 (the 1e-30 guard added to the denominator
is what keeps the sum just below 1). -/
theorem C3_sum_normalized (prov : ThermoProvider)
    (T_C P_bar fCH4 fCO2 GHSV : ℝ) (nseg : ℤ)
    (kinOpt : Option KineticsParams) (res : SimResult)
    (h : pfr_drm prov T_C P_bar fCH4 fCO2 0 GHSV nseg kinOpt = .ok res)
    (hFt : 1e-24 ≤ res.Ftot) :
    |res.y_CH4 + res.y_CO2 + res.y_CO + res.y_H2 + res.y_H2O - 1| ≤ 1e-6 := by
  obtain ⟨d, hd, hres⟩ := pfr_drm_core_ok_inv (pfr_drm_ok_inv h)
  subst hres
  obtain ⟨hF0nn, hFN2⟩ := pfr_drm_init_F0 hd
  have hN2 : d.F0 .N2 = 0 := hFN2 (by norm_num)
  have hnn := run_loop_nonneg prov d.kin d.T d.P d.dV nseg.toNat hF0nn
  have hN2fin : run_loop prov d.kin d.T d.P d.dV nseg.toNat d.F0 .N2 = 0 := by
    rw [run_loop_N2 prov d.kin d.T d.P d.dV nseg.toNat hF0nn, hN2]
  set Ffin := run_loop prov d.kin d.T d.P d.dV nseg.toNat d.F0 with hFdef
  simp only [finishF] at hFt ⊢
  have hSnn : 0 ≤ total Ffin := total_nonneg hnn
  have hpos : (0:ℝ) < total Ffin + 1e-30 := by
    have : (0:ℝ) < 1e-24 := by norm_num
    linarith
  have hsum5 : Ffin .CH4 + Ffin .CO2 + Ffin .CO + Ffin .H2 + Ffin .H2O
      = total Ffin := by
    unfold total
    rw [hN2fin]
    ring
  rw [div_add_div_same, div_add_div_same, div_add_div_same, div_add_div_same, hsum5]
  have hsub : total Ffin - (total Ffin + 1e-30) = -(1e-30) := by ring
  rw [div_sub_one hpos.ne', hsub, neg_div, abs_neg,
      abs_of_nonneg (div_nonneg (by norm_num) hpos.le), div_le_iff₀ hpos]
  linarith

/-- C3 (witness): the amended theorem at the frozen zero-N2 run. -/
theorem C3_witness :
    |res0C.y_CH4 + res0C.y_CO2 + res0C.y_CO + res0C.y_H2 + res0C.y_H2O - 1|
      ≤ 1e-6 :=
  C3_sum_normalized prov0 (-273.14) 1.0 700 300 10000 1 none res0C
    frozen_run_0 (by unfold res0C; norm_num)

/-- C4: an exception inside a segment body leaves the flow vector exactly
as it was and the loop moves on (first conjunct), and once initialization
has succeeded the run always completes with a result — the loop is a
total function into flow vectors, so no in-loop failure can abort the
call (second conjunct). -/
theorem C4_segment_fault_tolerance :
    (∀ (prov : ThermoProvider) (kin : KineticsParams) (T P dV : ℝ)
        (F : Species → ℝ) (e : PFRErr),
      seg_step_core prov kin T P dV F = .error e →
      loop_step prov kin T P dV F = F) ∧
    (∀ (prov : ThermoProvider) (T_C P_bar fCH4 fCO2 fN2 GHSV : ℝ) (nseg : ℤ)
        (kinOpt : Option KineticsParams) (d : InitData),
      pfr_drm_init prov T_C P_bar fCH4 fCO2 fN2 GHSV nseg kinOpt = .ok d →
      ∃ res, pfr_drm prov T_C P_bar fCH4 fCO2 fN2 GHSV nseg kinOpt = .ok res) := by
  constructor
  · intro prov kin T P dV F e he
    unfold loop_step
    split_ifs with h
    · rfl
    · rw [he]
  · intro prov T_C P_bar fCH4 fCO2 fN2 GHSV nseg kinOpt d hd
    refine ⟨finishF (run_loop prov d.kin d.T d.P d.dV nseg.toNat d.F0), ?_⟩
    unfold pfr_drm pfr_drm_core
    rw [hd]

/-- C4 (witness): a segment that raises `KineticsError` (negative H2
order at zero H2 pressure) leaves the flow vector unchanged, and a
successfully initialized run returns a result. -/
theorem C4_witness :
    loop_step prov0 kinBad 1000 100000 1 (mkF0 1 1 0) = mkF0 1 1 0 ∧
    ∃ res, pfr_drm prov0 (-273.14) 1.0 700 300 0 10000 1 none = .ok res := by
  constructor
  · exact C4_segment_fault_tolerance.1 prov0 kinBad 1000 100000 1
      (mkF0 1 1 0) .kinetics seg_error_C4
  · obtain ⟨d, hd, -, -, -⟩ := frozen_init_0
    exact C4_segment_fault_tolerance.2 prov0 (-273.14) 1.0 700 300 0 10000 1
      none d hd

/-- C5: when the segment's net rates are `(r1, r2)` — whatever their
values — and no entry of `F + R·dV` is negative (so the clamp is the
identity), the successful update preserves `F[CH4]+F[CO2]+F[CO]`
exactly, because both stoichiometric vectors have zero net carbon:
`(-1) + (-1) + 2 = 0` for DRM and `0 + (-1) + 1 = 0` for RWGS. -/
theorem C5_carbon_conserved (prov : ThermoProvider) (kin : KineticsParams)
    (T P dV : ℝ) (F F2 : Species → ℝ) (r1 r2 : ℝ)
    (hr : stepRates prov kin T P F = .ok (r1, r2))
    (hnn : ∀ sp, 0 ≤ F sp + stepR r1 r2 sp * dV)
    (hF2 : seg_step_core prov kin T P dV F = .ok F2) :
    F2 .CH4 + F2 .CO2 + F2 .CO = F .CH4 + F .CO2 + F .CO :=
  carbon_step hr hnn hF2

/-- C5 (witness): the conserved carbon total of a concrete successful
unclamped segment. -/
theorem C5_witness :
    F5step .CH4 + F5step .CO2 + F5step .CO = F5 .CH4 + F5 .CO2 + F5 .CO :=
  C5_carbon_conserved prov0 {} 0.01 100000 1 F5 F5step 0 0
    seg_ok_C5.1
    (fun sp => by
      cases sp <;>
        (unfold F5 mkF0 stepR nu_drm nu_rwgs; push_cast; norm_num))
    seg_ok_C5.2

/-- C6 (counterexample): a reachable segment state (provider `provC6`,
kinetics `kinC6`, all-ones flows at 1000 K and 1 atm) in which the DRM
equilibrium constant computed by the segment is exactly `exp(-700)`,
which lies below the `1e-300` floor of the net-rate formula; the net
rate the segment computes then differs from the claimed
`r_f·(1 − tanh(Qp/Kp))`, because the code divides by
`max(Kp, 1e-300) = 1e-300` instead of by `Kp`. -/
theorem C6_counterexample :
    stepRates provC6 kinC6 1000 oneAtm onesF
      = .ok (net_rate rfD6 (Qp (stepP oneAtm onesF) nu_drm) (Real.exp (-700)),
             net_rate rfW6 (Qp (stepP oneAtm onesF) nu_rwgs) (Real.exp (-700))) ∧
    power_law_rate kinC6.A_drm kinC6.E_drm kinC6.orders_drm gC6
      (stepP oneAtm onesF) = .ok rfD6 ∧
    equilibrium_constant provC6 gC6 rxn_drm = .ok (Real.exp (-700)) ∧
    net_rate rfD6 (Qp (stepP oneAtm onesF) nu_drm) (Real.exp (-700))
      ≠ rfD6 * (1 - Real.tanh
          (Qp (stepP oneAtm onesF) nu_drm / Real.exp (-700))) := by
  refine ⟨stepRates_C6, plr_C6_drm, Kp_C6_drm, ?_⟩
  intro heq
  have hqpos : 0 < Qp (stepP oneAtm onesF) nu_drm := Qp_pos _ _
  have hmax : max (Real.exp (-700)) (1e-300 : ℝ) = 1e-300 :=
    max_eq_right exp_neg700_lt.le
  unfold net_rate at heq
  rw [hmax] at heq
  have hlt : Qp (stepP oneAtm onesF) nu_drm / (1e-300 : ℝ)
      < Qp (stepP oneAtm onesF) nu_drm / Real.exp (-700) :=
    (div_lt_div_iff_of_pos_left hqpos (by norm_num) (Real.exp_pos _)).2 exp_neg700_lt
  have htanh := tanh_lt_tanh hlt
  have hcancel := mul_left_cancel₀ rfD6_pos.ne' heq
  linarith

/-- C6 (amended): the net rate a segment computes for each reaction is
`r_f · (1 − tanh(Qp / max(Kp, 1e-300)))` — the claimed formula with the
equilibrium constant floored at 1e-300 in the denominator — where `r_f`
and `Kp` are the forward rate and equilibrium constant computed by that
segment and `Qp` the clipped reaction quotient. -/
theorem C6_net_rate_formula (prov : ThermoProvider) (kin : KineticsParams)
    (T P : ℝ) (F : Species → ℝ) (g : GasState) (rf1 rf2 kp1 kp2 r1 r2 : ℝ)
    (hg : build_gas T P (stepX F) = .ok g)
    (h1 : power_law_rate kin.A_drm kin.E_drm kin.orders_drm g (stepP P F)
        = .ok rf1)
    (h2 : power_law_rate kin.A_rwgs kin.E_rwgs kin.orders_rwgs g (stepP P F)
        = .ok rf2)
    (hk1 : equilibrium_constant prov g rxn_drm = .ok kp1)
    (hk2 : equilibrium_constant prov g rxn_rwgs = .ok kp2)
    (h : stepRates prov kin T P F = .ok (r1, r2)) :
    r1 = rf1 * (1 - Real.tanh (Qp (stepP P F) nu_drm / max kp1 1e-300)) ∧
    r2 = rf2 * (1 - Real.tanh (Qp (stepP P F) nu_rwgs / max kp2 1e-300)) := by
  unfold stepRates at h
  rw [hg, ebind_ok, h1, ebind_ok, h2, ebind_ok, hk1, ebind_ok, hk2, ebind_ok] at h
  injection h with h
  exact ⟨(congrArg Prod.fst h).symm, (congrArg Prod.snd h).symm⟩

/-- C6 (witness): the amended formula at the concrete floor scenario. -/
theorem C6_witness :
    net_rate rfD6 (Qp (stepP oneAtm onesF) nu_drm) (Real.exp (-700))
      = rfD6 * (1 - Real.tanh
          (Qp (stepP oneAtm onesF) nu_drm / max (Real.exp (-700)) 1e-300)) ∧
    net_rate rfW6 (Qp (stepP oneAtm onesF) nu_rwgs) (Real.exp (-700))
      = rfW6 * (1 - Real.tanh
          (Qp (stepP oneAtm onesF) nu_rwgs / max (Real.exp (-700)) 1e-300)) :=
  C6_net_rate_formula provC6 kinC6 1000 oneAtm onesF gC6 rfD6 rfW6
    (Real.exp (-700)) (Real.exp (-700)) _ _
    bgC6 plr_C6_drm plr_C6_rwgs Kp_C6_drm Kp_C6_rwgs stepRates_C6

/-- C7: with positive temperature and positive partial pressure for every
species of nonzero order, `power_law_rate` returns 0 when the Arrhenius
exponent underflows past -700, and otherwise the non-negatively clamped
power-law rate `max(A·exp(-E/(R·T))·Π max(p_i,0)^order_i, 0)`. -/
theorem C7_power_law_value (A E : ℝ) (orders : Species → ℝ) (g : GasState)
    (p : Species → ℝ) (hT : 0 < g.T)
    (hp : ∀ sp, orders sp ≠ 0 → 0 < p sp) :
    power_law_rate A E orders g p
      = .ok (if -E / (Rgas * g.T) < -700 then 0
             else max (A * Real.exp (-E / (Rgas * g.T)) * plrProd orders p) 0) := by
  have hnb : ¬ badOrder orders p := by
    unfold badOrder
    push_neg
    refine ⟨fun hne _ => ?_, fun hne _ => ?_, fun hne _ => ?_,
            fun hne _ => ?_, fun hne _ => ?_, fun hne _ => ?_⟩ <;>
      exact ne_of_gt (lt_of_lt_of_le (hp _ hne) (le_max_left _ _))
  rw [plr_eval hT hnb]
  split_ifs with hu
  · rw [zero_mul, max_self]
  · rfl

/-- C7 (witness): the value at the concrete all-ones segment state. -/
theorem C7_witness :
    power_law_rate kinC6.A_drm kinC6.E_drm kinC6.orders_drm gC6
      (stepP oneAtm onesF)
      = .ok (if -kinC6.E_drm / (Rgas * gC6.T) < -700 then 0
             else max (kinC6.A_drm * Real.exp (-kinC6.E_drm / (Rgas * gC6.T)) *
               plrProd kinC6.orders_drm (stepP oneAtm onesF)) 0) :=
  C7_power_law_value kinC6.A_drm kinC6.E_drm kinC6.orders_drm gC6
    (stepP oneAtm onesF) (by show (0:ℝ) < 1000; norm_num)
    (fun sp _ => stepP_C6_pos sp)

/-- C8: with valid temperature, a species carrying a strictly negative
order and exactly zero partial pressure makes `power_law_rate` raise
`KineticsError` (undefined `0 ** negative`), returning no rate. -/
theorem C8_zero_pressure_negative_order (A E : ℝ) (orders : Species → ℝ)
    (g : GasState) (p : Species → ℝ) (sp0 : Species) (hT : 0 < g.T)
    (hneg : orders sp0 < 0) (hzero : p sp0 = 0) :
    power_law_rate A E orders g p = .error .kinetics := by
  apply plr_badOrder hT
  have hmax : max (p sp0) 0 = 0 := by rw [hzero]; exact max_self 0
  unfold badOrder
  cases sp0 with
  | CH4 => exact Or.inl ⟨ne_of_lt hneg, hneg, hmax⟩
  | CO2 => exact Or.inr (Or.inl ⟨ne_of_lt hneg, hneg, hmax⟩)
  | CO => exact Or.inr (Or.inr (Or.inl ⟨ne_of_lt hneg, hneg, hmax⟩))
  | H2 => exact Or.inr (Or.inr (Or.inr (Or.inl ⟨ne_of_lt hneg, hneg, hmax⟩)))
  | H2O => exact Or.inr (Or.inr (Or.inr (Or.inr
      (Or.inl ⟨ne_of_lt hneg, hneg, hmax⟩))))
  | N2 => exact Or.inr (Or.inr (Or.inr (Or.inr
      (Or.inr ⟨ne_of_lt hneg, hneg, hmax⟩))))

/-- C8 (witness): `kinBad` (H2 order -1) with a CH4/CO2-only flow (zero
H2 pressure) raises `KineticsError`. -/
theorem C8_witness :
    power_law_rate kinBad.A_drm kinBad.E_drm kinBad.orders_drm gC6
      (stepP 100000 (mkF0 1 1 0)) = .error .kinetics :=
  C8_zero_pressure_negative_order kinBad.A_drm kinBad.E_drm
    kinBad.orders_drm gC6 (stepP 100000 (mkF0 1 1 0)) .H2
    (by show (0:ℝ) < 1000; norm_num)
    (by show (-1 : ℝ) < 0; norm_num)
    (by show mkF0 (1:ℝ) 1 0 .H2 / total (mkF0 1 1 0) * 100000 = 0
        have hz : mkF0 (1:ℝ) 1 0 .H2 = 0 := rfl
        rw [hz, zero_div, zero_mul])

/-- C9: the embedded `pfr_drm` is a pure function of its declared
arguments — repeated calls with identical inputs are definitionally
equal — and omitting the optional kinetics argument is the same as
passing the freshly-constructed default `KineticsParams` explicitly
(`kin = KineticsParams()` builds the same value on every call; no
module-level mutable state exists in the embedding, mirroring the
absence of global mutable state in the source). -/
theorem C9_deterministic (prov : ThermoProvider)
    (T_C P_bar fCH4 fCO2 fN2 GHSV : ℝ) (nseg : ℤ)
    (kinOpt : Option KineticsParams) :
    pfr_drm prov T_C P_bar fCH4 fCO2 fN2 GHSV nseg none
      = pfr_drm prov T_C P_bar fCH4 fCO2 fN2 GHSV nseg (some {}) ∧
    pfr_drm prov T_C P_bar fCH4 fCO2 fN2 GHSV nseg kinOpt
      = pfr_drm prov T_C P_bar fCH4 fCO2 fN2 GHSV nseg kinOpt :=
  ⟨rfl, rfl⟩

/-- C10: `equilibrium_constant` always succeeds and its value
`exp(clip(lnKp, -700, 700))` lies in `[exp(-700), exp(700)]` — in
particular it is strictly positive and finite, so the error branch
guarding non-positive or non-finite Kp is unreachable after the clip. -/
theorem C10_Kp_bounded (prov : ThermoProvider) (g : GasState)
    (rxn : List (Species × ℤ)) :
    ∃ K, equilibrium_constant prov g rxn = .ok K ∧
      Real.exp (-700) ≤ K ∧ K ≤ Real.exp 700 ∧ 0 < K :=
  ⟨Real.exp (clip700 (eqLnKp prov g rxn)), eq_const_ok prov g rxn,
   Real.exp_le_exp.2 (le_clip700 _), Real.exp_le_exp.2 (clip700_le _),
   Real.exp_pos _⟩

end DRM
